import Mathlib

/-!
Shallow embedding of the Hytale server installer script
(src/hytale-server-installer.cjs) and proofs about it.

The script is sequential orchestration of OS-level operations; we embed
each function as a pure Lean function over explicit inputs (filesystem
listings, process outcomes, HTTP responses), faithful to the JavaScript
control flow.
-/

namespace HytaleInstaller

/-! ### JSON values and objects

JavaScript objects produced by JSON.parse are modelled as association
lists with unique keys (JSON.parse keeps the last duplicate, so its
output has unique keys).  Property read is first-match lookup; property
write replaces the first matching key in place or appends. -/

inductive JVal where
  | jnull
  | jbool (b : Bool)
  | jnum (n : Int)
  | jstr (s : String)
deriving DecidableEq, Repr

abbrev JObj := List (String × JVal)

def lookupJ (obj : JObj) (k : String) : Option JVal :=
  (obj.find? (fun kv => kv.1 == k)).map (fun kv => kv.2)

def setKey : JObj → String → JVal → JObj
  | [], k, v => [(k, v)]
  | kv :: rest, k, v =>
    if kv.1 == k then (k, v) :: rest else kv :: setKey rest k v

/-- Model of the JavaScript object spread `\x7b...a, ...b\x7d`:
keys of `b` override keys of `a`, new keys of `b` are appended. -/
def spreadMerge (a b : JObj) : JObj :=
  b.foldl (fun acc kv => setKey acc kv.1 kv.2) a

def keysOf (o : JObj) : List String := o.map Prod.fst

/-! ### Configuration (lines 71-95 of the script) -/

def DEFAULT_CONFIG : JObj :=
  [("startServer", .jbool true),
   ("cleanUp", .jbool true),
   ("downloaderArgs", .jstr ""),
   ("javaArgs", .jstr "-Xms2G -Xmx4G -XX:AOTCache=HytaleServer.aot"),
   ("hytaleArgs", .jstr "--assets Assets.zip --bind 5520")]

def knownConfigKeys : List String :=
  ["startServer", "cleanUp", "downloaderArgs", "javaArgs", "hytaleArgs"]

/-- State of the config file as seen by `loadConfig`: absent (with the
attempted write of defaults succeeding or not), present but failing
JSON.parse (carrying the parse-error message), or present and parsed
to an object. -/
inductive ConfigFile where
  | missing (writeOk : Bool)
  | unparsable (msg : String)
  | parsed (obj : JObj)
deriving DecidableEq, Repr

structure LoadResult where
  config : JObj
  fileAfter : ConfigFile
  logs : List (String × String)
deriving DecidableEq, Repr

/-- Embedding of `loadConfig` (lines 79-95): create the file with the
defaults when missing; on any thrown error (unreadable, unparsable,
or a failing write of the defaults) log an ERROR and return the
defaults; on success spread-merge the parsed object over the defaults.
The surrounding try/catch makes the JavaScript function total, which
the Lean type records. -/
def loadConfig : ConfigFile → LoadResult
  | .missing true =>
      ⟨DEFAULT_CONFIG, .parsed DEFAULT_CONFIG,
        [("INFO", "Created default installer-config.json")]⟩
  | .missing false =>
      ⟨DEFAULT_CONFIG, .missing false,
        [("ERROR", "Failed to load config.json: write failed")]⟩
  | .unparsable msg =>
      ⟨DEFAULT_CONFIG, .unparsable msg,
        [("ERROR", "Failed to load config.json: " ++ msg)]⟩
  | .parsed obj =>
      ⟨spreadMerge DEFAULT_CONFIG obj, .parsed obj, []⟩

/-! ### Typed configuration used by the later steps -/

structure Config where
  startServer : Bool
  cleanUp : Bool
  downloaderArgs : String
  javaArgs : String
  hytaleArgs : String
deriving DecidableEq, Repr

def defaultConfig : Config :=
  { startServer := true
  , cleanUp := true
  , downloaderArgs := ""
  , javaArgs := "-Xms2G -Xmx4G -XX:AOTCache=HytaleServer.aot"
  , hytaleArgs := "--assets Assets.zip --bind 5520" }

/-! ### Argument splitting (lines 182, 271-272)

JavaScript strings are sequences of characters, so the string
operations of the script are embedded at the character-list level. -/

def splitOnSpaceAux : List Char → List Char → List (List Char)
  | [], acc => [acc.reverse]
  | c :: cs, acc =>
    if c == ' ' then acc.reverse :: splitOnSpaceAux cs []
    else splitOnSpaceAux cs (c :: acc)

/-- Embedding of the JavaScript `s.split(" ")`: split at every single
space, no quoting or escaping, empty segments kept. -/
def splitArgs (s : String) : List String :=
  (splitOnSpaceAux s.toList []).map String.mk

/-- Argument list passed to the spawned downloader (lines 182-188). -/
def downloaderSpawnArgs (cfg : Config) : List String :=
  splitArgs cfg.downloaderArgs

/-- Final argument list composed for the server launch (lines 271-279). -/
def serverFinalArgs (cfg : Config) : List String :=
  splitArgs cfg.javaArgs ++ ["-jar", "HytaleServer.jar"] ++ splitArgs cfg.hytaleArgs

/-! ### Java runtime check (lines 117-124 and 160-176)

The regular expression `version\s+"(\d+)` with the `i` flag is embedded
as a leftmost scan: at each position, a case-insensitive match of
`version`, then one or more whitespace characters, then a double quote,
then a maximal non-empty run of digits (the capture). -/

/-- JavaScript `\s` restricted to its common members (ASCII whitespace
plus no-break space); the version strings at stake only use spaces. -/
def jsWhitespace (c : Char) : Bool :=
  c == ' ' || c == '\t' || c == '\n' || c == '\r' ||
  c == Char.ofNat 11 || c == Char.ofNat 12 || c == Char.ofNat 160

def digitsToNat (ds : List Char) : Nat :=
  ds.foldl (fun n c => n * 10 + (c.toNat - 48)) 0

/-- Try the pattern at the head of the character list. -/
def matchVersionAt (cs : List Char) : Option Nat :=
  if (cs.take 7).map Char.toLower = "version".toList then
    let rest := cs.drop 7
    if (rest.takeWhile jsWhitespace).isEmpty then none
    else
      match rest.dropWhile jsWhitespace with
      | '"' :: ds =>
          let digits := ds.takeWhile Char.isDigit
          if digits.isEmpty then none else some (digitsToNat digits)
      | _ => none
  else none

/-- Leftmost match of `version\s+"(\d+)` over the whole string,
returning the captured digits as a number. -/
def findVersion : List Char → Option Nat
  | [] => none
  | c :: cs =>
    match matchVersionAt (c :: cs) with
    | some n => some n
    | none => findVersion cs

/-- Outcome of `exec(cmd, cb)` as observed by the callback:
whether `err` was set, and the captured stdout and stderr. -/
structure ExecResult where
  err : Bool
  stdout : String
  stderr : String
deriving DecidableEq, Repr

/-- Embedding of the JavaScript `s.trim()`: strip whitespace from both
ends. -/
def jsTrim (s : String) : String :=
  String.mk (((s.toList.dropWhile jsWhitespace).reverse.dropWhile jsWhitespace).reverse)

/-- Embedding of `execAsync` (lines 117-124): reject only when `err` is
set and stderr is empty; otherwise resolve with the trimmed
concatenation of stdout and stderr. -/
def execAsync (r : ExecResult) : Except Unit String :=
  if r.err && (r.stderr == "") then .error ()
  else .ok (jsTrim (r.stdout ++ r.stderr))

inductive JavaErr where
  | notAccessible
  | cannotParse
  | tooOld (v : Nat)
deriving DecidableEq, Repr

/-- Embedding of `checkJava` (lines 160-176), returning the accepted
major version on success. -/
def checkJava (r : ExecResult) : Except JavaErr Nat :=
  match execAsync r with
  | .error _ => .error .notAccessible
  | .ok out =>
      match findVersion out.toList with
      | none => .error .cannotParse
      | some v => if v < 25 then .error (.tooOld v) else .ok v

/-! ### Network fetcher (lines 126-141) -/

/-- What the single HTTPS GET produced: a transport-level error event,
or a response with a status code and a body. -/
inductive HttpEvent where
  | transportError (msg : String)
  | response (status : Int) (body : List Nat)
deriving DecidableEq, Repr

inductive DownloadErr where
  | failedStatus (status : Int)
  | transport (msg : String)
deriving DecidableEq, Repr

/-- Embedding of `downloadFile` (lines 126-141): reject on a transport
error or on any status other than 200, otherwise the body is streamed
to the destination file, whose resulting contents we return. -/
def downloadFile (ev : HttpEvent) : Except DownloadErr (List Nat) :=
  match ev with
  | .transportError m => .error (.transport m)
  | .response status body =>
      if status ≠ 200 then .error (.failedStatus status) else .ok body

/-! ### Downloader runner (lines 178-197) -/

/-- How the spawned child ended: an `error` event, a normal exit with a
status code, or termination by a signal (in which case Node reports a
null code and the signal name). -/
inductive ChildOutcome where
  | spawnError (msg : String)
  | exited (code : Int)
  | signaled (sig : String)
deriving DecidableEq, Repr

inductive DownloaderErr where
  | spawnFailed (msg : String)
  | terminatedBySignal (sig : String)
  | exitedWithCode (code : Int)
deriving DecidableEq, Repr

/-- Embedding of the promise of `runDownloader` (lines 181-196): reject
on a spawn error, on a signal, or on a non-zero exit code; resolve on
exit code 0. -/
def runDownloader (outcome : ChildOutcome) : Except DownloaderErr Unit :=
  match outcome with
  | .spawnError m => .error (.spawnFailed m)
  | .signaled s => .error (.terminatedBySignal s)
  | .exited c => if c ≠ 0 then .error (.exitedWithCode c) else .ok ()

/-! ### Artifact locator (lines 199-215) -/

structure DirEntry where
  name : String
  time : Int
deriving DecidableEq, Repr

/-- Comparator `(a, b) => b.time - a.time` of the JavaScript sort:
`a` may precede `b` exactly when `b.time ≤ a.time`. -/
def timeDesc (a b : DirEntry) : Prop := b.time ≤ a.time

instance : DecidableRel timeDesc :=
  fun a b => inferInstanceAs (Decidable (b.time ≤ a.time))

instance : IsTotal DirEntry timeDesc :=
  ⟨fun a b => (le_total b.time a.time).imp id id⟩

instance : IsTrans DirEntry timeDesc :=
  ⟨fun _ _ _ h1 h2 => le_trans h2 h1⟩

/-- Embedding of the JavaScript `s.endsWith(pat)`. -/
def jsEndsWith (s pat : String) : Bool := pat.toList.isSuffixOf s.toList

def zipEntries (entries : List DirEntry) : List DirEntry :=
  entries.filter (fun e => jsEndsWith e.name ".zip")

def pathJoin (dir name : String) : String := dir ++ "/" ++ name

/-- Embedding of `findNewestZip` (lines 199-215): keep the entries whose
name ends in `.zip`, stable-sort them by descending modification time
(JavaScript `Array.prototype.sort` is stable, and `List.insertionSort`
is a stable sort realising the same comparator), fail when none remain,
otherwise return the joined path of the first. -/
def findNewestZip (dir : String) (entries : List DirEntry) : Except String String :=
  match List.insertionSort timeDesc (zipEntries entries) with
  | [] => .error "No downloaded ZIP found"
  | z :: _ => .ok (pathJoin dir z.name)

/-! ### Cleanup (lines 244-259)

The filesystem is modelled as the list of existing paths; recursively
removing `dir` removes `dir` itself and every path under it. -/

def strHasPrefix (pre s : String) : Bool := pre.toList.isPrefixOf s.toList

def rmRecursive (fs : List String) (dir : String) : List String :=
  fs.filter (fun p => !(p == dir || strHasPrefix (dir ++ "/") p))

/-- Guard of line 246: `!dir || dir === "/" || dir === process.cwd()`.
A missing argument is `none`; the empty string is falsy. -/
def guardSkip (cwd : String) (d : Option String) : Bool :=
  match d with
  | none => true
  | some s => s == "" || s == "/" || s == cwd

/-- One iteration of the `deleteDirs` loop on the filesystem state:
guarded paths are skipped, others are recursively force-removed. -/
def deleteDirStep (cwd : String) (fs : List String) (d : Option String) : List String :=
  match d with
  | none => fs
  | some s => if s == "" || s == "/" || s == cwd then fs else rmRecursive fs s

/-- Embedding of `deleteDirs` (lines 244-259) acting on the filesystem. -/
def deleteDirsRun (cwd : String) (fs : List String) (dirs : List (Option String)) :
    List String :=
  dirs.foldl (deleteDirStep cwd) fs

/-- The paths for which a removal is actually attempted by `deleteDirs`. -/
def deleteDirsAttempts (cwd : String) (dirs : List (Option String)) : List String :=
  dirs.filterMap (fun d => if guardSkip cwd d then none else d)

/-! ### Server launcher (lines 265-292) -/

inductive Effect where
  | logMsg (level msg : String)
  | exitProc (code : Int)
  | spawnProc (cmd : String) (args : List String)
deriving DecidableEq, Repr

/-- Embedding of `startServer` (lines 265-292) as the sequence of
observable effects it performs: with `startServer` false it logs and
exits 0 (Node's `exit` does not return, so nothing follows); otherwise
it logs the composed command line and spawns `java`. -/
def startServerEffects (cfg : Config) : List Effect :=
  if !cfg.startServer then
    [.logMsg "INFO" "Server start skipped. Exiting...", .exitProc 0]
  else
    [.logMsg "INFO" "Starting server with:",
     .logMsg "INFO" ("java " ++ String.intercalate " " (serverFinalArgs cfg)),
     .spawnProc "java" (serverFinalArgs cfg)]

/-! ### Module initialisation (lines 15-45)

Before the platform check the script derives its runtime paths and
truncates the log file (lines 22-27, `fs.writeFileSync(LOG_FILE, "")`);
only then is `DOWNLOADER_EXE` resolved and the unsupported-OS error
thrown (lines 36-45). -/

inductive InitEffect where
  | fsWrite (file content : String)
  | networkRequest (url : String)
deriving DecidableEq, Repr

/-- Embedding of the `DOWNLOADER_EXE` conditional (lines 36-41). -/
def DOWNLOADER_EXE (platform : String) : Option String :=
  if platform == "win32" then some "hytale-downloader-windows-amd64.exe"
  else if platform == "linux" then some "hytale-downloader-linux-amd64"
  else none

structure InitOutcome where
  effects : List InitEffect
  result : Except String String
deriving Repr

/-- Embedding of the module prologue (lines 15-45): the effects it
performs, in order, before its result — the log-file truncation happens
first, then the platform resolution either yields the executable name
or throws `Unsupported OS`. -/
def moduleInit (platform : String) : InitOutcome :=
  { effects := [.fsWrite "installer.log" ""]
  , result :=
      match DOWNLOADER_EXE platform with
      | some exe => .ok exe
      | none => .error ("Unsupported OS: " ++ platform) }

/-! ### Lemmas about object lookup and the spread merge -/

theorem lookupJ_cons (kv : String × JVal) (rest : JObj) (k : String) :
    lookupJ (kv :: rest) k = if kv.1 = k then some kv.2 else lookupJ rest k := by
  by_cases h : kv.1 = k
  · have hb : (kv.1 == k) = true := by simp [h]
    simp [lookupJ, List.find?, hb, h]
  · have hb : (kv.1 == k) = false := by simp [h]
    simp [lookupJ, List.find?, hb, h]

theorem lookupJ_setKey (o : JObj) (k : String) (v : JVal) (k2 : String) :
    lookupJ (setKey o k v) k2 = if k2 = k then some v else lookupJ o k2 := by
  induction o with
  | nil =>
      show lookupJ [(k, v)] k2 = _
      rw [lookupJ_cons]
      by_cases h : k2 = k
      · rw [if_pos (Eq.symm h), if_pos h]
      · rw [if_neg (Ne.symm h), if_neg h]
  | cons kv rest ih =>
      by_cases h : kv.1 = k
      · have hb : (kv.1 == k) = true := by simp [h]
        show lookupJ (if kv.1 == k then (k, v) :: rest else kv :: setKey rest k v) k2 = _
        rw [hb]
        simp only [if_true, lookupJ_cons]
        by_cases h2 : k2 = k
        · simp [h2]
        · have hkv : ¬kv.1 = k2 := fun hc => h2 ((Eq.symm hc).trans h)
          simp [h2, hkv, Ne.symm h2]
      · have hb : (kv.1 == k) = false := by simp [h]
        show lookupJ (if kv.1 == k then (k, v) :: rest else kv :: setKey rest k v) k2 = _
        rw [hb]
        simp only [Bool.false_eq_true, if_false, lookupJ_cons, ih]
        by_cases h3 : kv.1 = k2
        · have hne : ¬k2 = k := fun hc => h (h3.trans hc)
          simp [h3, hne]
        · simp [h3]

theorem lookupJ_eq_none (o : JObj) (k : String) (h : k ∉ keysOf o) :
    lookupJ o k = none := by
  induction o with
  | nil => rfl
  | cons kv rest ih =>
      simp only [keysOf, List.map_cons, List.mem_cons, not_or] at h
      have hne : ¬kv.1 = k := fun hc => h.1 (Eq.symm hc)
      rw [lookupJ_cons, if_neg hne]
      exact ih (by simpa [keysOf] using h.2)

theorem lookupJ_spreadMerge (b : JObj) (a : JObj) (k : String)
    (hnd : (keysOf b).Nodup) :
    lookupJ (spreadMerge a b) k = (lookupJ b k).or (lookupJ a k) := by
  induction b generalizing a with
  | nil => simp [spreadMerge, lookupJ]
  | cons kv rest ih =>
      simp only [keysOf, List.map_cons, List.nodup_cons] at hnd
      have hstep : spreadMerge a (kv :: rest) =
          spreadMerge (setKey a kv.1 kv.2) rest := by
        simp [spreadMerge]
      rw [hstep, ih _ hnd.2, lookupJ_setKey, lookupJ_cons]
      by_cases h2 : k = kv.1
      · have hrest : lookupJ rest k = none :=
          lookupJ_eq_none rest k (by simpa [keysOf, h2] using hnd.1)
        rw [hrest, if_pos h2, if_pos (Eq.symm h2), Option.none_or, Option.or_some]
      · rw [if_neg h2, if_neg (show ¬kv.1 = k from fun hc => h2 (Eq.symm hc))]

/-! ### Claim theorems -/

/-- Claim C1: for every call `deleteDirs(paths)`, any path in the list
that is empty/null, equal to the filesystem root, or equal to the
current working directory is skipped and acts as a no-op: processing it
leaves the filesystem unchanged and no removal is attempted for it; in
particular a call in which every path is guarded leaves the filesystem
intact. -/
theorem c1_deleteDirs_guard :
    (∀ (cwd : String) (fs : List String) (d : Option String),
        guardSkip cwd d = true → deleteDirStep cwd fs d = fs) ∧
    (∀ (cwd : String) (dirs : List (Option String)) (s : String),
        guardSkip cwd (some s) = true → s ∉ deleteDirsAttempts cwd dirs) ∧
    (∀ (cwd : String) (fs : List String) (dirs : List (Option String)),
        (∀ d ∈ dirs, guardSkip cwd d = true) → deleteDirsRun cwd fs dirs = fs) := by
  have hstep : ∀ (cwd : String) (fs : List String) (d : Option String),
      guardSkip cwd d = true → deleteDirStep cwd fs d = fs := by
    intro cwd fs d h
    cases d with
    | none => rfl
    | some s =>
        simp only [guardSkip] at h
        simp [deleteDirStep, h]
  refine ⟨hstep, ?_, ?_⟩
  · intro cwd dirs s h hmem
    rcases List.mem_filterMap.mp hmem with ⟨d, _, hfd⟩
    by_cases hg : guardSkip cwd d = true
    · rw [if_pos hg] at hfd
      cases hfd
    · rw [if_neg hg] at hfd
      rw [hfd] at hg
      exact hg h
  · intro cwd fs dirs hall
    induction dirs generalizing fs with
    | nil => rfl
    | cons d rest ih =>
        have h1 : deleteDirStep cwd fs d = fs :=
          hstep cwd fs d (hall d (List.mem_cons_self d rest))
        show List.foldl (deleteDirStep cwd) (deleteDirStep cwd fs d) rest = fs
        rw [h1]
        exact ih fs (fun d2 hd2 => hall d2 (List.mem_cons_of_mem d hd2))

/-- Witness for C1: with the working directory `/srv/hytale`, the
guarded paths `/`, the empty path and the working directory itself are
skipped and removing them is a no-op on a sample filesystem. -/
theorem c1_witness :
    guardSkip "/srv/hytale" (some "/srv/hytale") = true ∧
    deleteDirStep "/srv/hytale" ["/srv/hytale", "/srv/hytale/world"]
      (some "/srv/hytale") = ["/srv/hytale", "/srv/hytale/world"] ∧
    "/srv/hytale" ∉ deleteDirsAttempts "/srv/hytale"
      [some "/", some "", none, some "/srv/hytale"] ∧
    deleteDirsRun "/srv/hytale" ["/srv/hytale", "/srv/hytale/world"]
      [some "/", some "", none, some "/srv/hytale"] =
      ["/srv/hytale", "/srv/hytale/world"] :=
  ⟨by decide,
   c1_deleteDirs_guard.1 "/srv/hytale" ["/srv/hytale", "/srv/hytale/world"]
     (some "/srv/hytale") (by decide),
   c1_deleteDirs_guard.2.1 "/srv/hytale" [some "/", some "", none, some "/srv/hytale"]
     "/srv/hytale" (by decide),
   c1_deleteDirs_guard.2.2 "/srv/hytale" ["/srv/hytale", "/srv/hytale/world"]
     [some "/", some "", none, some "/srv/hytale"] (by decide)⟩

/-- Claim C3: for every config file that parses successfully, `load()`
returns the defaults with exactly the keys present in the file
overriding the corresponding default field-by-field; unknown fields are
ignored and missing fields keep their defaults; a file containing only
startServer=false loads as the defaults with only startServer flipped. -/
theorem c3_loadConfig_shallow_merge :
    (∀ obj : JObj, (keysOf obj).Nodup → ∀ k : String,
        lookupJ (loadConfig (.parsed obj)).config k =
          (lookupJ obj k).or (lookupJ DEFAULT_CONFIG k)) ∧
    (loadConfig (.parsed [("startServer", .jbool false)])).config =
      [("startServer", .jbool false),
       ("cleanUp", .jbool true),
       ("downloaderArgs", .jstr ""),
       ("javaArgs", .jstr "-Xms2G -Xmx4G -XX:AOTCache=HytaleServer.aot"),
       ("hytaleArgs", .jstr "--assets Assets.zip --bind 5520")] := by
  constructor
  · intro obj h k
    exact lookupJ_spreadMerge obj DEFAULT_CONFIG k h
  · decide

/-- Witness for C3: a file with a `startServer` override and an unknown
key merges field-by-field onto the defaults. -/
theorem c3_witness :
    (keysOf [("startServer", JVal.jbool false), ("unknownKey", JVal.jnum 7)]).Nodup ∧
    lookupJ (loadConfig
        (.parsed [("startServer", JVal.jbool false), ("unknownKey", JVal.jnum 7)])).config
      "cleanUp" =
      (lookupJ [("startServer", JVal.jbool false), ("unknownKey", JVal.jnum 7)] "cleanUp").or
        (lookupJ DEFAULT_CONFIG "cleanUp") :=
  ⟨by decide,
   c3_loadConfig_shallow_merge.1
     [("startServer", JVal.jbool false), ("unknownKey", JVal.jnum 7)] (by decide) "cleanUp"⟩

/-- Claim C4: the downloader runner splits the configured argument
string on single spaces with no quoting or escaping, and its promise
resolves exactly when the child exits with code 0 and no signal; a
signal or non-zero exit code yields a failure carrying it. -/
theorem c4_runDownloader_exit :
    (∀ cfg : Config, downloaderSpawnArgs cfg = splitArgs cfg.downloaderArgs) ∧
    (splitArgs "-a b" = ["-a", "b"]) ∧
    (splitArgs "--patchline \"pre release\"" = ["--patchline", "\"pre", "release\""]) ∧
    (∀ outcome, runDownloader outcome = .ok () ↔ outcome = .exited 0) ∧
    (∀ sig, runDownloader (.signaled sig) = .error (.terminatedBySignal sig)) ∧
    (∀ c : Int, c ≠ 0 → runDownloader (.exited c) = .error (.exitedWithCode c)) := by
  refine ⟨fun _ => rfl, by decide, by decide, ?_, fun _ => rfl, ?_⟩
  · intro outcome
    constructor
    · intro h
      cases outcome with
      | spawnError m => exact absurd h (by simp [runDownloader])
      | signaled s => exact absurd h (by simp [runDownloader])
      | exited c =>
          by_cases hc : c = 0
          · rw [hc]
          · exact absurd h (by simp [runDownloader, hc])
    · intro h
      rw [h]
      rfl
  · intro c hc
    simp [runDownloader, hc]

/-- Witness for C4: exit code 0 resolves, exit code 3 fails with that
code. -/
theorem c4_witness :
    (runDownloader (.exited 0) = .ok () ↔ ChildOutcome.exited 0 = .exited 0) ∧
    ((3 : Int) ≠ 0 ∧ runDownloader (.exited 3) = .error (.exitedWithCode 3)) :=
  ⟨c4_runDownloader_exit.2.2.2.1 (.exited 0),
   ⟨by decide, c4_runDownloader_exit.2.2.2.2.2 3 (by decide)⟩⟩

/-- Claim C6: `download(url, dest)` fails with a `DownloadError`
carrying the status code exactly when the status is not 200, fails on
any transport-level error, and otherwise streams the response body to
the destination; a single response is consumed, with no retry. -/
theorem c6_downloadFile_status :
    (∀ ev, (∃ s, downloadFile ev = .error (.failedStatus s)) ↔
        (∃ s body, ev = .response s body ∧ s ≠ 200)) ∧
    (∀ (s : Int) (body : List Nat), s ≠ 200 →
        downloadFile (.response s body) = .error (.failedStatus s)) ∧
    (∀ m, downloadFile (.transportError m) = .error (.transport m)) ∧
    (∀ body, downloadFile (.response 200 body) = .ok body) := by
  have hfail : ∀ (s : Int) (body : List Nat), s ≠ 200 →
      downloadFile (.response s body) = .error (.failedStatus s) := by
    intro s body hs
    simp [downloadFile, hs]
  refine ⟨?_, hfail, fun _ => rfl, fun _ => rfl⟩
  intro ev
  constructor
  · rintro ⟨s, hs⟩
    cases ev with
    | transportError m => exact absurd hs (by simp [downloadFile])
    | response st body =>
        by_cases h200 : st = 200
        · subst h200
          exact absurd hs (by simp [downloadFile])
        · refine ⟨st, body, rfl, h200⟩
  · rintro ⟨s, body, rfl, hs⟩
    exact ⟨s, hfail s body hs⟩

/-- Witness for C6: a 404 response fails carrying 404. -/
theorem c6_witness :
    ((404 : Int) ≠ 200) ∧
    downloadFile (.response 404 [1, 2]) = .error (.failedStatus 404) :=
  ⟨by decide, c6_downloadFile_status.2.1 404 [1, 2] (by decide)⟩

/-- Claim C8: for every existing config file whose contents fail to
parse, `load()` logs an error and returns the in-memory defaults
without modifying the file; and for any input `load()` returns normally
(all failures degrade to the defaults). -/
theorem c8_loadConfig_parse_failure :
    (∀ msg : String,
        loadConfig (.unparsable msg) =
          ⟨DEFAULT_CONFIG, .unparsable msg,
            [("ERROR", "Failed to load config.json: " ++ msg)]⟩) ∧
    (∀ file : ConfigFile,
        (loadConfig file).config = DEFAULT_CONFIG ∨
        ∃ obj, file = .parsed obj ∧
          (loadConfig file).config = spreadMerge DEFAULT_CONFIG obj) := by
  refine ⟨fun _ => rfl, ?_⟩
  intro file
  cases file with
  | missing w => cases w <;> exact .inl rfl
  | unparsable msg => exact .inl rfl
  | parsed obj => exact .inr ⟨obj, rfl, rfl⟩

/-- Claim C9: with `startServer = false` the launcher logs a message
beginning with "Server start skipped" and exits the process with
status 0 immediately, without spawning any process. -/
theorem c9_startServer_skip :
    ∀ cfg : Config, cfg.startServer = false →
      startServerEffects cfg =
        [.logMsg "INFO" "Server start skipped. Exiting...", .exitProc 0] ∧
      strHasPrefix "Server start skipped" "Server start skipped. Exiting..." = true ∧
      (∀ cmd args, Effect.spawnProc cmd args ∉ startServerEffects cfg) := by
  intro cfg h
  have heff : startServerEffects cfg =
      [.logMsg "INFO" "Server start skipped. Exiting...", .exitProc 0] := by
    simp [startServerEffects, h]
  refine ⟨heff, by decide, ?_⟩
  intro cmd args hmem
  rw [heff] at hmem
  simp at hmem

/-- Witness for C9: the default configuration with `startServer`
flipped to false skips the launch. -/
theorem c9_witness :
    ({ defaultConfig with startServer := false } : Config).startServer = false ∧
    startServerEffects { defaultConfig with startServer := false } =
      [.logMsg "INFO" "Server start skipped. Exiting...", .exitProc 0] :=
  ⟨by decide,
   (c9_startServer_skip { defaultConfig with startServer := false } (by decide)).1⟩

/-- Claim C10: splitting an empty configured argument string on single
spaces yields the one-element list containing the empty string, so the
child is spawned with one empty-string argument; in particular the
default `downloaderArgs` passes a single empty argument. -/
theorem c10_empty_args_split :
    (splitArgs "" = [""]) ∧
    (∀ cfg : Config, cfg.downloaderArgs = "" → downloaderSpawnArgs cfg = [""]) ∧
    (∀ cfg : Config, cfg.javaArgs = "" →
        serverFinalArgs cfg =
          [""] ++ ["-jar", "HytaleServer.jar"] ++ splitArgs cfg.hytaleArgs) ∧
    (∀ cfg : Config, cfg.hytaleArgs = "" →
        serverFinalArgs cfg =
          splitArgs cfg.javaArgs ++ ["-jar", "HytaleServer.jar"] ++ [""]) ∧
    (defaultConfig.downloaderArgs = "" ∧ downloaderSpawnArgs defaultConfig = [""]) := by
  have hsplit : splitArgs "" = [""] := by decide
  refine ⟨hsplit, ?_, ?_, ?_, ⟨rfl, by decide⟩⟩
  · intro cfg h
    simp [downloaderSpawnArgs, h, hsplit]
  · intro cfg h
    simp [serverFinalArgs, h, hsplit]
  · intro cfg h
    simp [serverFinalArgs, h, hsplit]

/-- Claim C2: the Java check extracts the major version as the digits
captured by the pattern `version\s+"(\d+)` (case-insensitive), fails
with an error when the runtime is not invokable, fails with a distinct
cannot-parse error when no version can be extracted, fails with an
error naming the parsed version when it is below 25, and succeeds
exactly when a major version of at least 25 is extracted. -/
theorem c2_checkJava_version :
    (∀ r : ExecResult, execAsync r = .error () → checkJava r = .error .notAccessible) ∧
    (∀ (r : ExecResult) (out : String), execAsync r = .ok out →
        findVersion out.toList = none → checkJava r = .error .cannotParse) ∧
    (∀ (r : ExecResult) (out : String) (v : Nat), execAsync r = .ok out →
        findVersion out.toList = some v → v < 25 → checkJava r = .error (.tooOld v)) ∧
    (∀ r : ExecResult, (∃ v, checkJava r = .ok v) ↔
        (∃ out v, execAsync r = .ok out ∧ findVersion out.toList = some v ∧ 25 ≤ v)) ∧
    (checkJava ⟨false, "", "openjdk version \"30.0.1\" 2031-03-16"⟩ = .ok 30) ∧
    (checkJava ⟨false, "", "openjdk version \"17.0.2\" 2022-01-18"⟩ = .error (.tooOld 17)) ∧
    (checkJava ⟨false, "", "gibberish output"⟩ = .error .cannotParse) ∧
    (checkJava ⟨true, "", ""⟩ = .error .notAccessible) := by
  refine ⟨?_, ?_, ?_, ?_, rfl, rfl, rfl, rfl⟩
  · intro r h
    simp [checkJava, h]
  · intro r out h hv
    have hv2 : findVersion out.data = none := hv
    simp [checkJava, h, hv2]
  · intro r out v h hv hlt
    have hv2 : findVersion out.data = some v := hv
    simp [checkJava, h, hv2, hlt]
  · intro r
    constructor
    · rintro ⟨v, hv⟩
      unfold checkJava at hv
      split at hv
      · exact absurd hv (by simp)
      · rename_i out hex
        split at hv
        · exact absurd hv (by simp)
        · rename_i w hfv
          split at hv
          · exact absurd hv (by simp)
          · rename_i h25
            injection hv with hwv
            exact ⟨out, v, hex, hwv ▸ hfv, hwv ▸ Nat.le_of_not_lt h25⟩
    · rintro ⟨out, v, hex, hfv, h25⟩
      have hfv2 : findVersion out.data = some v := hfv
      have hnlt : ¬v < 25 := Nat.not_lt.mpr h25
      refine ⟨v, ?_⟩
      simp [checkJava, hex, hfv2, hnlt]

/-- Witness for C2: a Java 17 version banner is rejected naming 17. -/
theorem c2_witness :
    execAsync ⟨false, "", "openjdk version \"17.0.2\" 2022-01-18"⟩ =
      .ok "openjdk version \"17.0.2\" 2022-01-18" ∧
    findVersion "openjdk version \"17.0.2\" 2022-01-18".toList = some 17 ∧
    (17 : Nat) < 25 ∧
    checkJava ⟨false, "", "openjdk version \"17.0.2\" 2022-01-18"⟩ =
      .error (.tooOld 17) :=
  ⟨rfl, rfl, by decide,
   c2_checkJava_version.2.2.1 ⟨false, "", "openjdk version \"17.0.2\" 2022-01-18"⟩
     "openjdk version \"17.0.2\" 2022-01-18" 17 rfl rfl (by decide)⟩

/-- Claim C5: `findNewestZip(dir)` considers exactly the entries whose
name ends in `.zip` and returns the path of one with maximal
modification time — with distinct times, the one with the greatest;
with no matching entries it fails. -/
theorem c5_findNewestZip_newest :
    ∀ (dir : String) (entries : List DirEntry),
      (zipEntries entries = [] ↔
          findNewestZip dir entries = .error "No downloaded ZIP found") ∧
      (∀ p, findNewestZip dir entries = .ok p →
          ∃ z, z ∈ zipEntries entries ∧ p = pathJoin dir z.name ∧
            ∀ e, e ∈ zipEntries entries → e.time ≤ z.time) ∧
      (∀ z, z ∈ zipEntries entries →
          (∀ e, e ∈ zipEntries entries → e ≠ z → e.time < z.time) →
          findNewestZip dir entries = .ok (pathJoin dir z.name)) := by
  intro dir entries
  have hperm : List.Perm (List.insertionSort timeDesc (zipEntries entries))
      (zipEntries entries) :=
    List.perm_insertionSort timeDesc (zipEntries entries)
  have hsorted : List.Sorted timeDesc (List.insertionSort timeDesc (zipEntries entries)) :=
    List.sorted_insertionSort timeDesc (zipEntries entries)
  cases hs : List.insertionSort timeDesc (zipEntries entries) with
  | nil =>
    have hnil : zipEntries entries = [] := ((hs ▸ hperm).symm).eq_nil
    have hres : findNewestZip dir entries = .error "No downloaded ZIP found" := by
      simp [findNewestZip, hs]
    refine ⟨⟨fun _ => hres, fun _ => hnil⟩, ?_, ?_⟩
    · intro p hp
      rw [hres] at hp
      cases hp
    · intro z hz
      rw [hnil] at hz
      cases hz
  | cons z0 rest =>
    have hres : findNewestZip dir entries = .ok (pathJoin dir z0.name) := by
      simp [findNewestZip, hs]
    have hz0mem : z0 ∈ zipEntries entries := by
      refine hperm.subset ?_
      rw [hs]
      exact List.mem_cons_self z0 rest
    have hmax : ∀ e, e ∈ zipEntries entries → e.time ≤ z0.time := by
      intro e he
      have he2 : e ∈ List.insertionSort timeDesc (zipEntries entries) :=
        hperm.symm.subset he
      rw [hs] at he2
      rcases List.mem_cons.mp he2 with he3 | he3
      · exact he3 ▸ le_refl _
      · rw [hs] at hsorted
        exact List.rel_of_sorted_cons hsorted e he3
    refine ⟨⟨?_, ?_⟩, ?_, ?_⟩
    · intro hnil
      rw [hnil] at hs
      cases hs
    · intro herr
      rw [hres] at herr
      cases herr
    · intro p hp
      rw [hres] at hp
      refine ⟨z0, hz0mem, ?_, hmax⟩
      injection hp with h2
      exact h2.symm
    · intro z hz hstrict
      by_cases heq : z0 = z
      · rw [hres, heq]
      · have h1 : z0.time < z.time := hstrict z0 hz0mem heq
        have h2 : z.time ≤ z0.time := hmax z hz
        exact absurd (lt_of_le_of_lt h2 h1) (lt_irrefl _)

/-- Witness for C5: among three zip files with distinct times and one
non-zip entry, the newest zip is returned. -/
theorem c5_witness :
    (⟨"c.zip", 7⟩ : DirEntry) ∈
      zipEntries [⟨"a.zip", 3⟩, ⟨"b.txt", 99⟩, ⟨"c.zip", 7⟩, ⟨"d.zip", 5⟩] ∧
    findNewestZip "/srv" [⟨"a.zip", 3⟩, ⟨"b.txt", 99⟩, ⟨"c.zip", 7⟩, ⟨"d.zip", 5⟩] =
      .ok (pathJoin "/srv" "c.zip") :=
  ⟨by decide,
   (c5_findNewestZip_newest "/srv"
       [⟨"a.zip", 3⟩, ⟨"b.txt", 99⟩, ⟨"c.zip", 7⟩, ⟨"d.zip", 5⟩]).2.2
     ⟨"c.zip", 7⟩ (by decide) (by decide)⟩

/-- Claim C7 counterexample: for the unsupported platform identifier
`darwin` the script does raise the unsupported-OS error, but a
filesystem side effect — the log-file truncation of lines 22-27 — has
already occurred before the platform check of lines 36-45, so the error
is not raised before any filesystem activity. -/
theorem c7_counterexample :
    (moduleInit "darwin").result = Except.error "Unsupported OS: darwin" ∧
    (moduleInit "darwin").effects = [.fsWrite "installer.log" ""] ∧
    (moduleInit "darwin").effects ≠ ([] : List InitEffect) := by
  refine ⟨rfl, rfl, ?_⟩
  intro h
  cases h

/-- Claim C7 as amended: the platform resolver returns the Windows
downloader executable name for `win32` and the Linux one for `linux`;
for any other identifier the module initialisation raises a fatal
unsupported-OS error before any network activity, the only filesystem
activity preceding it being the startup log-file truncation. -/
theorem c7_platform_resolver_amended :
    (DOWNLOADER_EXE "win32" = some "hytale-downloader-windows-amd64.exe") ∧
    (DOWNLOADER_EXE "linux" = some "hytale-downloader-linux-amd64") ∧
    (∀ p : String, p ≠ "win32" → p ≠ "linux" →
        (moduleInit p).result = .error ("Unsupported OS: " ++ p)) ∧
    (∀ (p u : String), InitEffect.networkRequest u ∉ (moduleInit p).effects) ∧
    (∀ p : String, (moduleInit p).effects = [.fsWrite "installer.log" ""]) := by
  refine ⟨rfl, rfl, ?_, ?_, fun _ => rfl⟩
  · intro p h1 h2
    have b1 : (p == "win32") = false := by simp [h1]
    have b2 : (p == "linux") = false := by simp [h2]
    simp [moduleInit, DOWNLOADER_EXE, b1, b2]
  · intro p u hmem
    simp [moduleInit] at hmem

/-- Witness for C7 as amended: `sunos` is neither `win32` nor `linux`
and the module initialisation fails on it. -/
theorem c7_witness :
    ("sunos" : String) ≠ "win32" ∧ ("sunos" : String) ≠ "linux" ∧
    (moduleInit "sunos").result = .error ("Unsupported OS: " ++ "sunos") :=
  ⟨by decide, by decide,
   c7_platform_resolver_amended.2.2.1 "sunos" (by decide) (by decide)⟩

/-- Witness for C10: a configuration whose three argument strings are
all empty spawns the downloader with a single empty argument and
composes the server command line with empty runtime and server
arguments. -/
theorem c10_witness :
    (({ defaultConfig with javaArgs := "", hytaleArgs := "" } : Config).downloaderArgs = "" ∧
      downloaderSpawnArgs { defaultConfig with javaArgs := "", hytaleArgs := "" } = [""]) ∧
    (({ defaultConfig with javaArgs := "", hytaleArgs := "" } : Config).javaArgs = "" ∧
      serverFinalArgs { defaultConfig with javaArgs := "", hytaleArgs := "" } =
        [""] ++ ["-jar", "HytaleServer.jar"] ++
          splitArgs ({ defaultConfig with javaArgs := "", hytaleArgs := "" } : Config).hytaleArgs) :=
  ⟨⟨by decide,
    c10_empty_args_split.2.1 { defaultConfig with javaArgs := "", hytaleArgs := "" } (by decide)⟩,
   ⟨by decide,
    c10_empty_args_split.2.2.1 { defaultConfig with javaArgs := "", hytaleArgs := "" } (by decide)⟩⟩

end HytaleInstaller
